import Mathlib

set_option maxRecDepth 10000

/-!
Verification of the name/ID resolution layer, rate limiter, and response
shaping of the opendota-mcp-server repository, as a shallow embedding of
the Python sources (`opendota_mcp/config.py`, `opendota_mcp/resolvers.py`,
`opendota_mcp/classes.py`, `opendota_mcp/utils.py`) into Lean.

Conventions of the embedding:
* Python `str` is Lean `String`; character-level operations work on
  `String.data : List Char`.  Case mapping covers ASCII plus the Latin-1
  uppercase range (the only characters occurring in the embedded data).
* Python dicts are association lists in insertion order with unique keys;
  `d[k]`/`k in d` are `List.lookup`-based.
* Fallible functions return `Except String α` (a raised `ValueError`
  becomes `.error msg`).
* `difflib.SequenceMatcher.ratio()` similarity scores are represented
  exactly as fractions (`Sim`, numerator `2*M`, denominator `len a + len b`)
  and compared by cross-multiplication, avoiding floating point; all
  strings involved are far shorter than the 200-character autojunk bound,
  so the plain longest-matching-block algorithm is the exact semantics.
* Wall-clock timestamps are integers (Python's `datetime` is discrete,
  microsecond-resolution; only ordering and the 60-second window matter).
-/

namespace OpenDota

/-- A single apostrophe character, used when building Python error
message strings. -/
def sq : String := String.singleton (Char.ofNat 39)

/-- Python `str.lower` on one character: ASCII `A`-`Z` and the Latin-1
uppercase letters `À`-`Þ` (except `×`) map down by 32; everything else is
unchanged. -/
def pyLowerChar (c : Char) : Char :=
  if 65 ≤ c.toNat ∧ c.toNat ≤ 90 then Char.ofNat (c.toNat + 32)
  else if 192 ≤ c.toNat ∧ c.toNat ≤ 222 ∧ c.toNat ≠ 215 then Char.ofNat (c.toNat + 32)
  else c

/-- Python `str.upper` on one character (ASCII range, as used by
`str.capitalize` on the item slugs). -/
def pyUpperChar (c : Char) : Char :=
  if 97 ≤ c.toNat ∧ c.toNat ≤ 122 then Char.ofNat (c.toNat - 32)
  else if 224 ≤ c.toNat ∧ c.toNat ≤ 254 ∧ c.toNat ≠ 247 then Char.ofNat (c.toNat - 32)
  else c

/-- Python `str.lower`. -/
def pyLower (s : String) : String := ⟨s.data.map pyLowerChar⟩

/-- Python's notion of whitespace for `str.strip()` / `str.split()`
(ASCII part: space, tab, LF, VT, FF, CR). -/
def isPySpace (c : Char) : Bool :=
  c = ' ' ∨ c.toNat = 9 ∨ c.toNat = 10 ∨ c.toNat = 11 ∨ c.toNat = 12 ∨ c.toNat = 13

/-- Python `str.strip()` (no argument): drop whitespace from both ends. -/
def pyStrip (s : String) : String :=
  ⟨((s.data.dropWhile isPySpace).reverse.dropWhile isPySpace).reverse⟩

/-- Python `str.replace(old, new)` for single-character `old`/`new`. -/
def pyReplaceChar (s : String) (old new : Char) : String :=
  ⟨s.data.map (fun c => if c = old then new else c)⟩

/-- Python `str.replace(old, "")` for a single-character `old`:
delete every occurrence. -/
def pyDeleteChar (s : String) (old : Char) : String :=
  ⟨s.data.filter (fun c => c ≠ old)⟩

/-- `resolvers._normalize_name`: remove spaces, hyphens, apostrophes,
make lowercase (`name.lower().replace(" ", "").replace("-", "").replace("'", "")`). -/
def normalizeName (name : String) : String :=
  pyDeleteChar (pyDeleteChar (pyDeleteChar (pyLower name) ' ') '-') (Char.ofNat 39)

/-- Python `str.split()` (no argument): split on runs of whitespace,
discarding empty fragments.  Helper carrying the reversed current word. -/
def pySplitAux : List Char → List Char → List String
  | [], acc => if acc.isEmpty then [] else [⟨acc.reverse⟩]
  | c :: rest, acc =>
    if isPySpace c then
      if acc.isEmpty then pySplitAux rest [] else (⟨acc.reverse⟩ : String) :: pySplitAux rest []
    else pySplitAux rest (c :: acc)

/-- Python `str.split()` (no argument). -/
def pySplit (s : String) : List String := pySplitAux s.data []

/-- Python `str.capitalize()`: first character uppercased, the rest
lowercased. -/
def pyCapitalize (s : String) : String :=
  match s.data with
  | [] => s
  | c :: rest => ⟨pyUpperChar c :: rest.map pyLowerChar⟩

/-- Python `", ".join(l)` style joining. -/
def joinSep (sep : String) : List String → String
  | [] => ""
  | [x] => x
  | x :: xs => x ++ sep ++ joinSep sep xs

/-- Code-point lexicographic strict order on strings (Python `<` on
`str`, used for tuple tie-breaking and `sorted`). -/
def charListLt : List Char → List Char → Bool
  | [], [] => false
  | [], _ :: _ => true
  | _ :: _, [] => false
  | a :: as, b :: bs =>
    if a.toNat < b.toNat then true
    else if b.toNat < a.toNat then false
    else charListLt as bs

/-- Python `<` on strings. -/
def pyStrLt (a b : String) : Bool := charListLt a.data b.data

/-! ### `difflib.SequenceMatcher` similarity

`_similarity(a, b) = SequenceMatcher(None, a, b).ratio()`, where
`ratio = 2*M/T`, `M` the total size of the matching blocks and
`T = len(a)+len(b)` (`ratio = 1.0` when both strings are empty).  The
matching blocks are found by recursively taking the longest block that
matches in both windows (earliest start in `a`, then earliest in `b`,
among the longest) and recursing on the parts to its left and right.
All strings scored in this code base are shorter than 200 characters, so
difflib's autojunk heuristic never activates. -/

/-- Length of the longest common prefix of two character lists. -/
def commonPrefixLen : List Char → List Char → Nat
  | a :: as, b :: bs => if a = b then commonPrefixLen as bs + 1 else 0
  | _, _ => 0

/-- `find_longest_match` over whole lists: the triple `(i, j, k)` of the
longest block with `a.drop i` and `b.drop j` agreeing on `k` characters,
preferring smaller `i`, then smaller `j` (ties keep the first found:
the fold only improves on strictly longer blocks). -/
def bestBlock (a b : List Char) : Nat × Nat × Nat :=
  (List.range a.length).foldl
    (fun best i =>
      (List.range b.length).foldl
        (fun best j =>
          let k := commonPrefixLen (a.drop i) (b.drop j)
          if best.2.2 < k then (i, j, k) else best)
        best)
    (0, 0, 0)

/-- Total size `M` of all matching blocks, with explicit fuel (the
recursion depth is bounded by the total length, see `matchingSize`). -/
def matchingSizeF : Nat → List Char → List Char → Nat
  | 0, _, _ => 0
  | fuel + 1, a, b =>
    let t := bestBlock a b
    if t.2.2 = 0 then 0
    else
      matchingSizeF fuel (a.take t.1) (b.take t.2.1) + t.2.2 +
        matchingSizeF fuel (a.drop (t.1 + t.2.2)) (b.drop (t.2.1 + t.2.2))

/-- Total size of all matching blocks of two character lists.  Each
recursive call strictly shrinks the combined length, so
`a.length + b.length + 1` units of fuel always suffice. -/
def matchingSize (a b : List Char) : Nat :=
  matchingSizeF (a.length + b.length + 1) a b

/-- An exact similarity score: the rational `num / den` with `den > 0`.
`SequenceMatcher.ratio()` for `a`, `b` is `2*M/(len a + len b)`
(and `1.0` for two empty strings). -/
structure Sim where
  num : Nat
  den : Nat
  deriving Repr, DecidableEq

/-- `_similarity(a, b)` as an exact fraction. -/
def simOf (a b : String) : Sim :=
  let t := a.data.length + b.data.length
  if t = 0 then ⟨1, 1⟩ else ⟨2 * matchingSize a.data b.data, t⟩

/-- `s ≥ p/q` by cross-multiplication. -/
def Sim.geFrac (s : Sim) (p q : Nat) : Bool := decide (p * s.den ≤ q * s.num)

/-- `s > t` as rationals. -/
def Sim.gtSim (s t : Sim) : Bool := decide (t.num * s.den < s.num * t.den)

/-- `s ≥ t` as rationals. -/
def Sim.geSim (s t : Sim) : Bool := decide (t.num * s.den ≤ s.num * t.den)

/-- `s = t` as rationals. -/
def Sim.eqSim (s t : Sim) : Bool := decide (s.num * t.den = t.num * s.den)

/-- Stable insertion keeping `y` before `x` whenever `ge y x` holds:
inserting each element of a list in order yields Python's stable
descending sort. -/
def insertDesc (ge : α → α → Bool) (x : α) : List α → List α
  | [] => [x]
  | y :: ys => if ge y x then y :: insertDesc ge x ys else x :: y :: ys

/-- Python `list.sort(reverse=True)` / `sorted(reverse=True)`: stable
descending sort by the comparator `ge` (`ge y x` = "`y` sorts at or
before `x`"). -/
def stableSortDesc (ge : α → α → Bool) (l : List α) : List α :=
  l.foldl (fun acc x => insertDesc ge x acc) []

/-- Ascending stable insertion (for Python `sorted(...)`). -/
def insertAsc (le : α → α → Bool) (x : α) : List α → List α
  | [] => [x]
  | y :: ys => if le y x then y :: insertAsc le x ys else x :: y :: ys

/-- Python `sorted(...)` ascending, stable. -/
def stableSortAsc (le : α → α → Bool) (l : List α) : List α :=
  l.foldl (fun acc x => insertAsc le x acc) []

/-- `difflib.get_close_matches(word, possibilities, n, cutoff)`:
keep the possibilities whose `ratio(x, word)` clears the cutoff
(`cutoffNum/cutoffDen`), order by `(score, x)` tuples descending (Python
tuple comparison: score first, then the string itself), take `n`.
The `real_quick_ratio`/`quick_ratio` pre-filters are upper bounds of
`ratio` and therefore do not change the result. -/
def getCloseMatches (word : String) (possibilities : List String) (n : Nat)
    (cutoffNum cutoffDen : Nat) : List String :=
  let scored := possibilities.filterMap (fun x =>
    let s := simOf x word
    if s.geFrac cutoffNum cutoffDen then some (s, x) else none)
  let ge : Sim × String → Sim × String → Bool := fun y x =>
    y.1.gtSim x.1 ∨ (y.1.eqSim x.1 ∧ ¬ pyStrLt y.2 x.2)
  ((stableSortDesc ge scored).take n).map Prod.snd

/-! ### `config.py` constants -/

/-- `config.LANE_MAPPING`: the lane-synonym dict, in insertion order
(keys are unique; the jungle block at the end of the literal is
commented out in the source). -/
def LANE_MAPPING : List (String × Int) :=
  [("safe lane", 1), ("safelane", 1), ("safe", 1), ("carry", 1),
   ("pos 1", 1), ("position 1", 1), ("pos1", 1), ("1", 1),
   ("hard support", 1), ("hardsupport", 1), ("hard sup", 1), ("hardsup", 1),
   ("pos 5", 1), ("position 5", 1), ("pos5", 1), ("5", 1),
   ("mid", 2), ("midlane", 2), ("mid lane", 2), ("middle", 2),
   ("pos 2", 2), ("position 2", 2), ("pos2", 2), ("2", 2),
   ("off lane", 3), ("offlane", 3), ("off", 3), ("hard lane", 3), ("hardlane", 3),
   ("pos 3", 3), ("position 3", 3), ("pos3", 3), ("3", 3),
   ("sot support", 1), ("softsupport", 1), ("soft sup", 1), ("softsup", 1),
   ("pos 4", 1), ("position 4", 1), ("pos4", 1), ("4", 1)]

/-- `config.LANE_DESCRIPTIONS` (lane role id to description). -/
def LANE_DESCRIPTIONS : List (Int × String) :=
  [(1, "Safe Lane (Carry-Position 1/Hard Support-Position 5)"),
   (2, "Mid Lane (Position 2)"),
   (3, "Off Lane (Offlane-Position 3/Soft Support-Position 4)"),
   (4, "Jungle/Roaming (Position 4)")]

/-- `config.VALID_STAT_FIELDS`: synonym key to canonical field name, in
dict insertion order. -/
def VALID_STAT_FIELDS : List (String × String) :=
  [("kills", "kills"),
   ("deaths", "deaths"), ("death", "deaths"),
   ("assists", "assists"), ("assist", "assists"),
   ("hero_damage", "hero_damage"), ("herodamage", "hero_damage"), ("damage", "hero_damage"),
   ("hero_healing", "hero_healing"), ("herohealing", "hero_healing"), ("healing", "hero_healing"),
   ("gold_per_min", "gold_per_min"), ("gpm", "gold_per_min"), ("goldpermin", "gold_per_min"),
   ("xp_per_min", "xp_per_min"), ("xpm", "xp_per_min"), ("exppermin", "xp_per_min"),
   ("last_hits", "last_hits"), ("lasthits", "last_hits"), ("cs", "last_hits"),
   ("creep score", "last_hits"),
   ("denies", "denies"), ("denys", "denies"), ("deny", "denies"),
   ("duration", "duration"), ("match duration", "duration"), ("matchduration", "duration"),
   ("match_length", "duration"), ("matchlength", "duration")]

/-- `config.ITEM_NAME_CONVERSION`: canonical internal item slug to its
list of colloquial aliases, in dict insertion order. -/
def ITEM_NAME_CONVERSION : List (String × List String) :=
  [("bfury", ["battle fury", "battle furry"]),
   ("ultimate_scepter", ["aghanims scepter", "aghanim scepter", "aghanim", "agh scepter", "scepter"]),
   ("shard", ["agh shard", "aghanim shard", "aghanims shard"]),
   ("hand_of_midas", ["midas", "hands of midas"]),
   ("guardian_grieves", ["guardians of grieves", "guardian of grieves", "grieves"]),
   ("spirit_vessel", ["vessel", "spirits vessel", "sprit vessel"]),
   ("skadi", ["eye of skadi", "eyes of skadi", "eyeofskadi", "eyesofskadi"]),
   ("black_king_bar", ["bkb", "black king"]),
   ("monkey_king_bar", ["mkb", "monkey king"]),
   ("diffusal_blade", ["diffusal"]),
   ("octarine_core", ["octarine"]),
   ("travel_boots", ["bot", "bots", "travels", "boots of travel"]),
   ("power_treads", ["treads", "pt"]),
   ("phase_boots", ["phase"]),
   ("tranquil_boots", ["tranquils"])]

/-- `config.PLAYER_CACHE`: the pre-seeded nickname-to-account-id map. -/
def PLAYER_CACHE : List (String × String) :=
  [("kürlo", "116856452"),
   ("ömer", "149733355"),
   ("hotpocalypse", "79233435"),
   ("special one", "107409939"),
   ("xinobillie", "36872251"),
   ("zøcnutex", "110249858")]

/-! ### Lane resolution (`resolvers.py`) -/

/-- Result of `convert_lane_name_to_id_logic`: either the
`lane_role`/`description` dict or the `error`/`valid_options` dict. -/
inductive LaneLookup where
  | ok (lane_role : Int) (description : String)
  | err (msg : String) (valid_options : List String)
  deriving Repr, DecidableEq

/-- `resolvers.convert_lane_name_to_id_logic`: lowercase and strip the
name, look it up in `LANE_MAPPING`; on a hit also return the lane
description, otherwise the error dict. -/
def convert_lane_name_to_id_logic (lane_name : String) : LaneLookup :=
  let lower := pyStrip (pyLower lane_name)
  match LANE_MAPPING.lookup lower with
  | some lane_role =>
    .ok lane_role ((LANE_DESCRIPTIONS.lookup lane_role).getD "")
  | none =>
    .err ("Lane " ++ sq ++ lane_name ++ sq ++ " not recognized")
      ["mid", "safe lane", "offlane", "jungle", "pos 1-4"]

/-- `resolvers.resolve_lane`: `None` passes through, an integer is
validated to the range 1-4, a string goes through
`convert_lane_name_to_id_logic`; failures raise `ValueError`. -/
def resolve_lane (lane : Option (Int ⊕ String)) : Except String (Option Int) :=
  match lane with
  | none => .ok none
  | some (.inl n) =>
    if 1 ≤ n ∧ n ≤ 4 then .ok (some n)
    else .error ("Lane role must be between 1-4, got " ++ toString n)
  | some (.inr s) =>
    match convert_lane_name_to_id_logic s with
    | .ok lane_role _ => .ok (some lane_role)
    | .err _ valid_options =>
      .error ("Lane " ++ sq ++ s ++ sq ++ " not recognized. Valid options: " ++
        joinSep ", " valid_options)

/-! ### Stat-field resolution (`resolvers.resolve_stat_field`) -/

/-- The input normalization of `resolve_stat_field`:
`field.lower().strip().replace("_", " ").replace("-", " ")`. -/
def statNormalize (field : String) : String :=
  pyReplaceChar (pyReplaceChar (pyStrip (pyLower field)) '_' ' ') '-' ' '

/-- `sorted(set(VALID_STAT_FIELDS.values()))`: the distinct canonical
stat-field names in ascending order. -/
def validStatFieldValuesSorted : List String :=
  stableSortAsc (fun a b => ¬ pyStrLt b a) (VALID_STAT_FIELDS.map Prod.snd).eraseDups

/-- `resolvers.resolve_stat_field`: reject empty input; normalize
(lowercase, strip, underscores and hyphens to spaces); then in order
try the synonym table keyed with underscores, with spaces removed, with
spaces preserved; then `difflib.get_close_matches` with `n=3` and
cutoff `0.6 = 3/5`; otherwise raise listing the first 10 sorted
canonical field names. -/
def resolve_stat_field (field : String) : Except String String :=
  if field = "" then .error "Field cannot be empty"
  else
    let field_normalized := statNormalize field
    let field_key := pyReplaceChar field_normalized ' ' '_'
    match VALID_STAT_FIELDS.lookup field_key with
    | some result => .ok result
    | none =>
      let field_nospace := pyDeleteChar field_normalized ' '
      match VALID_STAT_FIELDS.lookup field_nospace with
      | some result => .ok result
      | none =>
        match VALID_STAT_FIELDS.lookup field_normalized with
        | some result => .ok result
        | none =>
          match getCloseMatches field_normalized (VALID_STAT_FIELDS.map Prod.fst) 3 3 5 with
          | best_match :: _ => .ok ((VALID_STAT_FIELDS.lookup best_match).getD "")
          | [] =>
            .error ("Statistical field " ++ sq ++ field ++ sq ++ " not recognized. " ++
              "Valid fields: " ++ joinSep ", " (validStatFieldValuesSorted.take 10) ++ "... " ++
              "(See documentation for full list)")

/-! ### Hero resolution (`resolvers.get_hero_id_by_name_logic`,
`resolvers.resolve_hero`) -/

/-- A hero record of the Reference Catalog, with the two fields the
resolver reads. -/
structure HeroRec where
  id : Int
  localized_name : String
  deriving Repr, DecidableEq

/-- The four shapes of dict returned by `get_hero_id_by_name_logic`
(`match_type=exact`, fuzzy with high confidence, fuzzy with medium
confidence and alternatives, or the error dict carrying the query and
suggestions — the error message is the query interpolated into a fixed
template). -/
inductive HeroLookup where
  | exact (hero_id : Int) (localized_name : String)
  | fuzzyHigh (hero_id : Int) (localized_name : String)
  | fuzzyMedium (hero_id : Int) (localized_name : String) (alternatives : List String)
  | err (query : String) (suggestions : List String)
  deriving Repr, DecidableEq

/-- `resolvers.get_hero_id_by_name_logic` over a hero list (the values
of the loaded catalog, in order): normalized exact scan first; then the
fuzzy pass keeping similarity `≥ 0.8`, stably sorted descending, with
`confidence=high` at `≥ 0.9` and otherwise up to 3 alternatives; then
the suggestion pass keeping similarity `≥ 0.5`, sorted, first 5. -/
def get_hero_id_by_name_logic (heroes : List HeroRec) (hero_name : String) : HeroLookup :=
  let hero_name_normalized := normalizeName hero_name
  match heroes.find? (fun h => normalizeName h.localized_name = hero_name_normalized) with
  | some h => .exact h.id h.localized_name
  | none =>
    let fuzzyMatches := heroes.filterMap (fun h =>
      let sim := simOf hero_name_normalized (normalizeName h.localized_name)
      if sim.geFrac 4 5 then some (h, sim) else none)
    let sorted := stableSortDesc (fun y x => y.2.geSim x.2) fuzzyMatches
    match sorted with
    | best :: _ =>
      if best.2.geFrac 9 10 then .fuzzyHigh best.1.id best.1.localized_name
      else
        .fuzzyMedium best.1.id best.1.localized_name
          ((sorted.take 3).map (fun m => m.1.localized_name))
    | [] =>
      let suggestions := heroes.filterMap (fun h =>
        let sim := simOf hero_name_normalized (normalizeName h.localized_name)
        if sim.geFrac 1 2 then some (h.localized_name, sim) else none)
      let sortedSugg := stableSortDesc (fun y x => y.2.geSim x.2) suggestions
      .err hero_name ((sortedSugg.take 5).map Prod.fst)

/-- `resolvers.resolve_hero`: `None` passes through, an integer is
returned unchanged (no catalog validation), a string goes through the
name lookup; a miss raises `ValueError` whose message appends up to 3
suggestions when any exist. -/
def resolve_hero (heroes : List HeroRec) (hero : Option (Int ⊕ String)) :
    Except String (Option Int) :=
  match hero with
  | none => .ok none
  | some (.inl n) => .ok (some n)
  | some (.inr s) =>
    match get_hero_id_by_name_logic heroes s with
    | .exact hero_id _ => .ok (some hero_id)
    | .fuzzyHigh hero_id _ => .ok (some hero_id)
    | .fuzzyMedium hero_id _ _ => .ok (some hero_id)
    | .err _ suggestions =>
      if suggestions.isEmpty then
        .error ("Hero " ++ sq ++ s ++ sq ++ " not found")
      else
        .error ("Hero " ++ sq ++ s ++ sq ++ " not found. Did you mean: " ++
          joinSep ", " (suggestions.take 3) ++ "?")

/-- Modelled from the spec: the Reference Catalog's hero list.  The
bundled data file `constants/heroes.json` is not part of the sources;
per spec section 3 a `HeroRecord` carries `id` and `localized_name`,
and sections 4.3/8 fix `resolveHero("Anti-Mage") == 1` and Rubick's
canonical ID 86.  A small representative catalog with those entries. -/
def specHeroes : List HeroRec :=
  [⟨1, "Anti-Mage"⟩, ⟨2, "Axe"⟩, ⟨3, "Bane"⟩, ⟨86, "Rubick"⟩]

/-! ### Item resolution (`resolvers.resolve_item_to_internal_name`,
`format_item_name`) -/

/-- Step 1 of item resolution: the first entry of
`ITEM_NAME_CONVERSION` one of whose aliases normalizes to the
(already-normalized) input, yielding its canonical internal slug. -/
def itemAliasLookup (inputNormalized : String) : Option String :=
  (ITEM_NAME_CONVERSION.find?
    (fun p => p.2.any (fun al => normalizeName al = inputNormalized))).map Prod.fst

/-- `resolvers.resolve_item_to_internal_name` over the items catalog
(internal slug paired with the optional `dname` field, in catalog
order).  Empty catalog raises; then the alias table, exact internal
name, exact display name, fuzzy (`max` of slug/display similarity,
floor `0.7 = 7/10`), and finally the error with up to 5 example items.
(The `None` passthrough of the Python function is omitted: inputs here
are strings.) -/
def resolve_item_to_internal_name (items : List (String × Option String))
    (item_input : String) : Except String String :=
  if items.isEmpty then .error "Items reference data not loaded"
  else
    let input_normalized := normalizeName item_input
    match itemAliasLookup input_normalized with
    | some internal_name => .ok internal_name
    | none =>
      match items.find? (fun p => normalizeName p.1 = input_normalized) with
      | some p => .ok p.1
      | none =>
        match items.find? (fun p => normalizeName (p.2.getD "") = input_normalized) with
        | some p => .ok p.1
        | none =>
          let fuzzyMatches := items.filterMap (fun p =>
            let internal_sim := simOf input_normalized (normalizeName p.1)
            let display_sim := simOf input_normalized (normalizeName (p.2.getD ""))
            let best_sim := if internal_sim.geSim display_sim then internal_sim else display_sim
            if best_sim.geFrac 7 10 then some (p, best_sim) else none)
          match stableSortDesc (fun y x => y.2.geSim x.2) fuzzyMatches with
          | best :: _ => .ok best.1.1
          | [] =>
            .error ("Item " ++ sq ++ item_input ++ sq ++ " not found. Example items: " ++
              joinSep ", " ((items.take 5).map (fun p => p.2.getD p.1)))

/-- `resolvers.format_item_name` (nested in
`get_item_display_name_by_id`): split the slug on underscores,
capitalize each word unless it is a function word — the first word is
always capitalized. -/
def format_item_name (internal_name : String) : String :=
  let words := pySplit (pyReplaceChar internal_name '_' ' ')
  let lowercase_words : List String := ["of", "the", "and", "a", "an", "in", "on", "at", "to"]
  let formatted := words.enum.map (fun p =>
    if p.1 = 0 ∨ ¬ lowercase_words.contains p.2 then pyCapitalize p.2 else pyLower p.2)
  joinSep " " formatted

/-- The item display-name formatter as the spec phrases it
(section 4.5): capitalize the first word always; lowercase every later
word that is in the fixed function-word set; capitalize the rest.
Stated separately to compare against the source-derived
`format_item_name`. -/
def formatItemNameSpec (internal_name : String) : String :=
  let words := pySplit (pyReplaceChar internal_name '_' ' ')
  let functionWords : List String := ["of", "the", "and", "a", "an", "in", "on", "at", "to"]
  let formatted := words.enum.map (fun p =>
    if p.1 = 0 then pyCapitalize p.2
    else if functionWords.contains p.2 then pyLower p.2
    else pyCapitalize p.2)
  joinSep " " formatted

/-! ### Player account cache (`utils.get_account_id`) -/

/-- Python dict assignment `d[k] = v` on an association list:
overwrite in place if the key exists, else append. -/
def dictSet (d : List (String × String)) (k v : String) : List (String × String) :=
  if (d.lookup k).isSome then d.map (fun p => if p.1 = k then (k, v) else p)
  else d ++ [(k, v)]

/-- `utils.get_account_id`, with the upstream `/search` call abstracted
as a pure oracle `search` from the raw query string to the list of
`account_id` fields of the results, and with the number of upstream
search calls made returned alongside the result and the updated cache.
A cache hit under the lowercased name returns immediately; otherwise
one rate-limited search runs, an empty result raises, and the first
result's id (as a string) is written back under the lowercased name. -/
def get_account_id (search : String → List Int) (cache : List (String × String))
    (player_name : String) : Except String (String × List (String × String) × Nat) :=
  let player_name_lower := pyLower player_name
  match cache.lookup player_name_lower with
  | some v => .ok (v, cache, 0)
  | none =>
    match search player_name with
    | [] => .error ("No players found matching " ++ sq ++ player_name ++ sq)
    | first :: _ =>
      let account_id := toString first
      .ok (account_id, dictSet cache player_name_lower account_id, 1)

/-! ### Rate limiter (`classes.RateLimiter`) -/

/-- The purge `classes.py` runs before every admission check:
keep the request timestamps strictly younger than 60 seconds. -/
def purgeWindow (now : Int) (requests : List Int) : List Int :=
  requests.filter (fun t => now - t < 60)

/-- One `RateLimiter.acquire()` call (the critical section is atomic
under the instance lock, so calls are modelled sequentially).  A call
is a pair `(now₁, now₂)`: the wall-clock reading on entry and the
reading after the (possible) sleep.  Purge, check the window against
the capacity, sleep and re-purge when full, append the current
reading. -/
def acquireStep (cap : Nat) (s : List Int) (call : Int × Int) : List Int :=
  let purged := purgeWindow call.1 s
  if cap ≤ purged.length then
    let oldest := purged.headD 0
    let wait := 60 - (call.1 - oldest)
    if 0 < wait then (purgeWindow call.2 purged).concat call.2
    else purged.concat call.1
  else purged.concat call.1

/-- A sequence of `acquire()` calls starting from the freshly
constructed limiter (`self.requests = []`). -/
def runAcquires (cap : Nat) (calls : List (Int × Int)) : List Int :=
  calls.foldl (acquireStep cap) []

/-- Well-formedness of a call trace against the state it runs from:
the wall clock never runs backwards (every recorded timestamp is at
most the entry reading, and the post-sleep reading is at least the
entry reading), and `asyncio.sleep(wait)` suspends for at least
`wait = 60 - (now - oldest)` seconds, i.e. when the window is full the
post-sleep reading is at least `oldest + 60`. -/
def ValidCalls (cap : Nat) : List Int → List (Int × Int) → Prop
  | _, [] => True
  | s, c :: rest =>
    (∀ t ∈ s, t ≤ c.1) ∧ c.1 ≤ c.2 ∧
    (cap ≤ (purgeWindow c.1 s).length → (purgeWindow c.1 s).headD 0 + 60 ≤ c.2) ∧
    ValidCalls cap (acquireStep cap s c) rest

/-! ### Match-section extraction (`resolvers.extract_match_sections`) -/

/-- JSON-like Python values, as far as the shaping code distinguishes
them. -/
inductive JVal where
  | null
  | boolean (b : Bool)
  | int (n : Int)
  | str (s : String)
  | list (elems : List JVal)
  | dict (fields : List (String × JVal))

mutual

/-- Structural equality on `JVal` (Python `==` as the shaping code uses
it on JSON data). -/
def JVal.beq : JVal → JVal → Bool
  | .null, .null => true
  | .boolean a, .boolean b => a == b
  | .int a, .int b => a == b
  | .str a, .str b => a == b
  | .list as, .list bs => JVal.beqList as bs
  | .dict as, .dict bs => JVal.beqFields as bs
  | _, _ => false

def JVal.beqList : List JVal → List JVal → Bool
  | [], [] => true
  | a :: as, b :: bs => JVal.beq a b && JVal.beqList as bs
  | _, _ => false

def JVal.beqFields : List (String × JVal) → List (String × JVal) → Bool
  | [], [] => true
  | (k1, v1) :: as, (k2, v2) :: bs => k1 == k2 && JVal.beq v1 v2 && JVal.beqFields as bs
  | _, _ => false
end

instance : BEq JVal := ⟨JVal.beq⟩

/-- `isinstance(v, (list, dict))`. -/
def JVal.isListOrDict : JVal → Bool
  | .list _ => true
  | .dict _ => true
  | _ => false

/-- Python `type(v).__name__`. -/
def JVal.typeName : JVal → String
  | .null => "NoneType"
  | .boolean _ => "bool"
  | .int _ => "int"
  | .str _ => "str"
  | .list _ => "list"
  | .dict _ => "dict"

/-- The Python exceptions distinguished by `extract_match_sections`. -/
inductive PyErr where
  | valueError (msg : String)
  | typeError (msg : String)
  | keyError (msg : String)
  | attributeError (msg : String)
  deriving Repr, DecidableEq

/-- Is `needle` a contiguous substring of `hay`? -/
def isSubstrChars (needle hay : List Char) : Bool :=
  (List.range (hay.length + 1)).any
    (fun p => commonPrefixLen needle (hay.drop p) = needle.length)

/-- Python `key in v`: dict key membership, list element membership,
substring test on strings; `TypeError` otherwise. -/
def memPy (key : String) : JVal → Except PyErr Bool
  | .dict fields => .ok (fields.lookup key).isSome
  | .list elems => .ok (elems.contains (.str key))
  | .str s => .ok (isSubstrChars key.data s.data)
  | v => .error (.typeError ("argument of type " ++ sq ++ v.typeName ++ sq ++ " is not iterable"))

/-- Python `v[key]` for a string key: dict lookup (`KeyError` on a
miss), `TypeError` on any non-dict. -/
def indexPy (v : JVal) (key : String) : Except PyErr JVal :=
  match v with
  | .dict fields =>
    match fields.lookup key with
    | some x => .ok x
    | none => .error (.keyError (sq ++ key ++ sq))
  | other => .error (.typeError (other.typeName ++ " indices must be integers"))

/-- Python `repr` of a list of strings (as interpolated into the
"could not find match data" message). -/
def pyReprStrList (keys : List String) : String :=
  "[" ++ joinSep ", " (keys.map (fun k => sq ++ k ++ sq)) ++ "]"

/-- The fixed `section_keys` list of `extract_match_sections`. -/
def SECTION_KEYS : List String :=
  ["players", "teamfights", "objectives", "chat", "picks_bans",
   "radiant_gold_adv", "radiant_xp_adv", "cosmetics", "od_data",
   "all_word_counts", "my_word_counts"]

/-- The wrapper-detection `try` block of `extract_match_sections`:
locate the match object inside an RPC envelope, a `structuredContent`
field, or the data itself when it has `match_id` and `players`. -/
def findMatchObject (data : List (String × JVal)) : Except PyErr JVal := do
  let cond1 ← match data.lookup "result" with
    | some rv => memPy "structuredContent" rv
    | none => pure false
  if cond1 then
    indexPy ((data.lookup "result").getD (.dict [])) "structuredContent"
  else if (data.lookup "structuredContent").isSome then
    pure ((data.lookup "structuredContent").getD .null)
  else if (data.lookup "match_id").isSome ∧ (data.lookup "players").isSome then
    pure (.dict data)
  else
    .error (.valueError ("Could not find match data in JSON. Top-level keys: " ++
      pyReprStrList (data.map Prod.fst)))

/-- The `for section in section_keys: if section in match:
sections[section] = match[section]` loop of `extract_match_sections`. -/
def buildSections (fields : List (String × JVal)) : List String → List (String × JVal)
  | [] => []
  | k :: ks =>
    match fields.lookup k with
    | some v => (k, v) :: buildSections fields ks
    | none => buildSections fields ks

/-- The metadata filter of `extract_match_sections`:
`not isinstance(v, (list, dict)) or k in ['all_word_counts', 'my_word_counts']`. -/
def metadataPred (p : String × JVal) : Bool :=
  ¬ p.2.isListOrDict ∨ p.1 = "all_word_counts" ∨ p.1 = "my_word_counts"

/-- `resolvers.extract_match_sections` on a top-level dict: find the
match object (converting `KeyError`/`AttributeError` to `ValueError`
per the `except` clause), require it to be a dict, copy each present
section key, and add a `metadata` dict of the non-list/non-dict fields
(word-count fields always included). -/
def extract_match_sections (data : List (String × JVal)) :
    Except PyErr (List (String × JVal)) := do
  let m ← match findMatchObject data with
    | .ok v => pure v
    | .error (.keyError e) => .error (.valueError ("Invalid data structure: " ++ e))
    | .error (.attributeError e) => .error (.valueError ("Invalid data structure: " ++ e))
    | .error e => .error e
  match m with
  | .dict fields =>
    let sections := buildSections fields SECTION_KEYS
    let metadata := fields.filter metadataPred
    pure (sections ++ [("metadata", .dict metadata)])
  | other =>
    .error (.valueError ("Match data must be a dictionary, got " ++ other.typeName))

/-! ## Association-list helper lemmas -/

theorem lookup_append_of_some {α : Type} {l₁ : List (String × α)} (l₂ : List (String × α))
    {k : String} {v : α} (h : l₁.lookup k = some v) : (l₁ ++ l₂).lookup k = some v := by
  induction l₁ with
  | nil => simp [List.lookup] at h
  | cons p rest ih =>
    rcases p with ⟨k₁, v₁⟩
    by_cases hk : k = k₁
    · subst hk
      simp only [List.lookup, beq_self_eq_true] at h ⊢
      exact h
    · simp only [List.cons_append, List.lookup, beq_eq_false_iff_ne.mpr hk] at h ⊢
      exact ih h

theorem lookup_append_of_none {α : Type} {l₁ : List (String × α)} (l₂ : List (String × α))
    {k : String} (h : l₁.lookup k = none) : (l₁ ++ l₂).lookup k = l₂.lookup k := by
  induction l₁ with
  | nil => simp
  | cons p rest ih =>
    rcases p with ⟨k₁, v₁⟩
    by_cases hk : k = k₁
    · subst hk
      simp only [List.lookup, beq_self_eq_true] at h
      exact absurd h (by simp)
    · simp only [List.cons_append, List.lookup, beq_eq_false_iff_ne.mpr hk] at h ⊢
      exact ih h

theorem lookup_eq_none_of_not_mem_keys {α : Type} {l : List (String × α)} {k : String}
    (h : k ∉ l.map Prod.fst) : l.lookup k = none := by
  induction l with
  | nil => rfl
  | cons p rest ih =>
    rcases p with ⟨k₁, v₁⟩
    simp only [List.map_cons, List.mem_cons, not_or] at h
    simp only [List.lookup, beq_eq_false_iff_ne.mpr h.1]
    exact ih h.2

/-- A positive filter lookup: if the first binding of `k` satisfies the
predicate, it is also the first binding of `k` in the filtered list. -/
theorem lookup_filter_of_pos {α : Type} {l : List (String × α)} {p : String × α → Bool}
    {k : String} {v : α} (h : l.lookup k = some v) (hp : p (k, v) = true) :
    (l.filter p).lookup k = some v := by
  induction l with
  | nil => simp [List.lookup] at h
  | cons q rest ih =>
    rcases q with ⟨k₁, v₁⟩
    rw [List.filter_cons]
    by_cases hk : k = k₁
    · subst hk
      simp only [List.lookup, beq_self_eq_true] at h
      obtain rfl : v₁ = v := by injection h
      rw [if_pos hp]
      simp [List.lookup]
    · simp only [List.lookup, beq_eq_false_iff_ne.mpr hk] at h
      by_cases hq : p (k₁, v₁)
      · rw [if_pos hq]
        simp only [List.lookup, beq_eq_false_iff_ne.mpr hk]
        exact ih h
      · rw [if_neg hq]
        exact ih h

/-- Keys of a filtered association list are keys of the original. -/
theorem mem_keys_filter {α : Type} {l : List (String × α)} {p : String × α → Bool}
    {k : String} (h : k ∈ (l.filter p).map Prod.fst) : k ∈ l.map Prod.fst := by
  obtain ⟨q, hq, rfl⟩ := List.mem_map.mp h
  exact List.mem_map_of_mem Prod.fst (List.mem_of_mem_filter hq)

/-- A negative filter lookup, for keys occurring at most once: if the
binding of `k` fails the predicate, `k` is absent from the filtered
list. -/
theorem lookup_filter_of_neg {α : Type} {l : List (String × α)} {p : String × α → Bool}
    {k : String} {v : α} (hnd : (l.map Prod.fst).Nodup)
    (h : l.lookup k = some v) (hp : p (k, v) = false) :
    (l.filter p).lookup k = none := by
  induction l with
  | nil => simp [List.lookup] at h
  | cons q rest ih =>
    rcases q with ⟨k₁, v₁⟩
    simp only [List.map_cons, List.nodup_cons] at hnd
    rw [List.filter_cons]
    by_cases hk : k = k₁
    · subst hk
      simp only [List.lookup, beq_self_eq_true] at h
      obtain rfl : v₁ = v := by injection h
      rw [if_neg (by simp [hp])]
      exact lookup_eq_none_of_not_mem_keys (fun hmem => hnd.1 (mem_keys_filter hmem))
    · simp only [List.lookup, beq_eq_false_iff_ne.mpr hk] at h
      by_cases hq : p (k₁, v₁)
      · rw [if_pos hq]
        simp only [List.lookup, beq_eq_false_iff_ne.mpr hk]
        exact ih hnd.2 h
      · rw [if_neg hq]
        exact ih hnd.2 h

/-- Looking a `SECTION_KEYS`-style key up in the built section list
recovers the lookup in the underlying dict, for keys of the list. -/
theorem lookup_buildSections (fields : List (String × JVal)) (keys : List String) (k : String) :
    (buildSections fields keys).lookup k = if k ∈ keys then fields.lookup k else none := by
  induction keys with
  | nil => simp [buildSections]
  | cons key rest ih =>
    by_cases hk : k = key
    · subst hk
      cases hlk : fields.lookup k with
      | none =>
        simp only [buildSections, hlk, ih]
        by_cases hmem : k ∈ rest <;> simp [hmem, hlk]
      | some v =>
        simp only [buildSections, hlk]
        simp [List.lookup]
    · cases hlk : fields.lookup key with
      | none =>
        simp only [buildSections, hlk, ih]
        simp [List.mem_cons, hk]
      | some v =>
        simp only [buildSections, hlk]
        simp only [List.lookup, beq_eq_false_iff_ne.mpr hk, ih]
        simp [List.mem_cons, hk]

/-! ## Claim theorems -/

/-- C2 — the lane synonym table does map every "position 5" phrasing to
role 1, but it maps the "position 4" and soft-support phrasings to
role 1 as well, not to role 3 (the role of the "position 3" phrasings
and of the soft-support entry of `LANE_DESCRIPTIONS`): the code's
behavior at the inputs on which the claim fails. -/
theorem lane_position4_maps_to_role1 :
    convert_lane_name_to_id_logic "position 5" =
      .ok 1 "Safe Lane (Carry-Position 1/Hard Support-Position 5)" ∧
    convert_lane_name_to_id_logic "position 1" =
      .ok 1 "Safe Lane (Carry-Position 1/Hard Support-Position 5)" ∧
    convert_lane_name_to_id_logic "position 4" =
      .ok 1 "Safe Lane (Carry-Position 1/Hard Support-Position 5)" ∧
    convert_lane_name_to_id_logic "soft sup" =
      .ok 1 "Safe Lane (Carry-Position 1/Hard Support-Position 5)" ∧
    convert_lane_name_to_id_logic "position 3" =
      .ok 3 "Off Lane (Offlane-Position 3/Soft Support-Position 4)" := by
  refine ⟨rfl, rfl, rfl, rfl, rfl⟩

/-- C9 — the item display-name formatter agrees everywhere with the
spec's description (split on underscores, capitalize every word except
later function words), and meets both fixture checks. -/
theorem format_item_name_correct :
    (∀ s : String, format_item_name s = formatItemNameSpec s) ∧
    format_item_name "ultimate_scepter" = "Ultimate Scepter" ∧
    format_item_name "boots_of_travel" = "Boots of Travel" := by
  refine ⟨fun s => ?_, rfl, rfl⟩
  unfold format_item_name formatItemNameSpec
  apply congrArg
  apply List.map_congr_left
  intro p _
  by_cases h0 : p.1 = 0
  · rw [if_pos (Or.inl h0), if_pos h0]
  · by_cases hb : (["of", "the", "and", "a", "an", "in", "on", "at", "to"] : List String).contains p.2
    · rw [if_neg (fun h => h.elim h0 (fun hc => hc hb)), if_neg h0, if_pos hb]
    · rw [if_pos (Or.inr hb), if_neg h0, if_neg hb]

/-- Witness for C9 at a concrete slug. -/
theorem format_item_name_correct_witness :
    format_item_name "blades_of_attack" = formatItemNameSpec "blades_of_attack" :=
  format_item_name_correct.1 "blades_of_attack"

/-- C3 — counterexample: "octarine" IS a literal alias (of
"octarine_core"), so its resolution is decided by the alias layer, not
the fuzzy layer; and no alias of the table normalizes to "bfury" (in
the table "bfury" is the canonical internal slug, with aliases "battle
fury"/"battle furry"), nor is "battle_fury" one of the table's
canonical slugs — so "bfury" cannot resolve to "battle_fury" via the
alias table. -/
theorem item_alias_layer_counterexample :
    itemAliasLookup (normalizeName "octarine") = some "octarine_core" ∧
    itemAliasLookup (normalizeName "bfury") = none ∧
    (ITEM_NAME_CONVERSION.map Prod.fst).contains "battle_fury" = false ∧
    resolve_item_to_internal_name [("bfury", some "Battle Fury")] "octarine" =
      .ok "octarine_core" := by
  exact ⟨by decide, by decide, by decide, rfl⟩

/-- C3 (amended) — item resolution resolves "octarine" to
"octarine_core" via the alias-table layer (it is a literal alias), and
resolves "battle fury" to "bfury" via the alias-table layer (the
table's canonical internal name for Battle Fury is "bfury", not
"battle_fury"); the input "bfury" itself matches no alias-table entry.
The two resolutions hold for every non-empty items catalog, because the
alias layer runs first. -/
theorem item_alias_layer_amended (items : List (String × Option String))
    (h : items ≠ []) :
    resolve_item_to_internal_name items "octarine" = .ok "octarine_core" ∧
    resolve_item_to_internal_name items "battle fury" = .ok "bfury" ∧
    itemAliasLookup (normalizeName "bfury") = none := by
  have hne : items.isEmpty = false := by
    cases items with
    | nil => exact absurd rfl h
    | cons a l => rfl
  refine ⟨?_, ?_, by decide⟩
  · simp only [resolve_item_to_internal_name]
    rw [if_neg (by simp [hne])]
    rw [show itemAliasLookup (normalizeName "octarine") = some "octarine_core" from by decide]
  · simp only [resolve_item_to_internal_name]
    rw [if_neg (by simp [hne])]
    rw [show itemAliasLookup (normalizeName "battle fury") = some "bfury" from by decide]

/-- Witness for the amended C3 at a concrete one-item catalog. -/
theorem item_alias_layer_amended_witness :
    resolve_item_to_internal_name [("bfury", some "Battle Fury")] "octarine" =
        .ok "octarine_core" ∧
    resolve_item_to_internal_name [("bfury", some "Battle Fury")] "battle fury" =
        .ok "bfury" ∧
    itemAliasLookup (normalizeName "bfury") = none :=
  item_alias_layer_amended [("bfury", some "Battle Fury")] (by decide)

/-- C6 — `resolve_lane` is the identity on integers 1-4, raises a range
error on every other integer, raises the not-recognized error on every
string missing from the synonym table (after lowercasing/stripping),
and maps "mid", "position 2" and "2" to lane role 2. -/
theorem resolve_lane_contract :
    (∀ n : Int, 1 ≤ n → n ≤ 4 → resolve_lane (some (.inl n)) = .ok (some n)) ∧
    (∀ n : Int, ¬ (1 ≤ n ∧ n ≤ 4) → resolve_lane (some (.inl n)) =
      .error ("Lane role must be between 1-4, got " ++ toString n)) ∧
    (∀ s : String, LANE_MAPPING.lookup (pyStrip (pyLower s)) = none →
      resolve_lane (some (.inr s)) =
        .error ("Lane " ++ sq ++ s ++ sq ++ " not recognized. Valid options: " ++
          joinSep ", " ["mid", "safe lane", "offlane", "jungle", "pos 1-4"])) ∧
    resolve_lane (some (.inr "mid")) = .ok (some 2) ∧
    resolve_lane (some (.inr "position 2")) = .ok (some 2) ∧
    resolve_lane (some (.inr "2")) = .ok (some 2) := by
  refine ⟨fun n h1 h2 => ?_, fun n h => ?_, fun s hnone => ?_, rfl, rfl, rfl⟩
  · simp only [resolve_lane]
    rw [if_pos ⟨h1, h2⟩]
  · simp only [resolve_lane]
    rw [if_neg h]
  · simp only [resolve_lane, convert_lane_name_to_id_logic]
    rw [hnone]

/-- Witness for C6 at concrete inputs (in-range integer, out-of-range
integer, unrecognized string). -/
theorem resolve_lane_contract_witness :
    resolve_lane (some (.inl 3)) = .ok (some 3) ∧
    resolve_lane (some (.inl 7)) =
      .error ("Lane role must be between 1-4, got " ++ toString (7 : Int)) ∧
    resolve_lane (some (.inr "banana")) =
      .error ("Lane " ++ sq ++ "banana" ++ sq ++ " not recognized. Valid options: " ++
        joinSep ", " ["mid", "safe lane", "offlane", "jungle", "pos 1-4"]) :=
  ⟨resolve_lane_contract.1 3 (by decide) (by decide),
   resolve_lane_contract.2.1 7 (by decide),
   resolve_lane_contract.2.2.1 "banana" (by decide)⟩

/-- C5 — `resolve_hero` passes `None` through, is the identity on every
integer with no catalog validation (in particular on 99999), and on a
string the name lookup fails for raises `ValueError` whose message
carries up to 3 of the returned suggestions when any exist. -/
theorem resolve_hero_identity_and_notfound :
    (∀ heroes : List HeroRec, resolve_hero heroes none = .ok none) ∧
    (∀ (heroes : List HeroRec) (n : Int), resolve_hero heroes (some (.inl n)) = .ok (some n)) ∧
    resolve_hero specHeroes (some (.inl 99999)) = .ok (some 99999) ∧
    (∀ (heroes : List HeroRec) (s q : String) (sugg : List String),
      get_hero_id_by_name_logic heroes s = .err q sugg →
      resolve_hero heroes (some (.inr s)) =
        .error (if sugg.isEmpty then "Hero " ++ OpenDota.sq ++ s ++ OpenDota.sq ++ " not found"
          else "Hero " ++ OpenDota.sq ++ s ++ OpenDota.sq ++ " not found. Did you mean: " ++
            joinSep ", " (sugg.take 3) ++ "?")) := by
  refine ⟨fun heroes => rfl, fun heroes n => rfl, rfl, fun heroes s q sugg h => ?_⟩
  simp only [resolve_hero]
  rw [h]
  cases hs : sugg.isEmpty <;> simp [hs]

/-- Witness for C5's not-found branch: "zzzz" misses the modelled
catalog with no suggestions. -/
theorem resolve_hero_identity_and_notfound_witness :
    resolve_hero specHeroes (some (.inr "zzzz")) =
      .error (if ([] : List String).isEmpty then
          "Hero " ++ OpenDota.sq ++ "zzzz" ++ OpenDota.sq ++ " not found"
        else "Hero " ++ OpenDota.sq ++ "zzzz" ++ OpenDota.sq ++ " not found. Did you mean: " ++
          joinSep ", " (([] : List String).take 3) ++ "?") :=
  resolve_hero_identity_and_notfound.2.2.2 specHeroes "zzzz" "zzzz" [] (by rfl)

/-- The hero name lookup depends on its query only through
`normalizeName`, except that the not-found dict quotes the raw query:
two queries with equal normalizations give equal results, or the same
suggestions with their respective raw queries. -/
theorem heroLogic_key_congr (heroes : List HeroRec) {a b : String}
    (h : normalizeName a = normalizeName b) :
    get_hero_id_by_name_logic heroes a = get_hero_id_by_name_logic heroes b ∨
    ∃ sugg, get_hero_id_by_name_logic heroes a = .err a sugg ∧
      get_hero_id_by_name_logic heroes b = .err b sugg := by
  simp only [get_hero_id_by_name_logic, h]
  cases heroes.find? (fun hh => normalizeName hh.localized_name = normalizeName b) with
  | some hh => exact Or.inl rfl
  | none =>
    cases stableSortDesc (fun y x => y.2.geSim x.2) (heroes.filterMap (fun hh =>
      if (simOf (normalizeName b) (normalizeName hh.localized_name)).geFrac 4 5 then
        some (hh, simOf (normalizeName b) (normalizeName hh.localized_name)) else none)) with
    | cons best rest => exact Or.inl rfl
    | nil => exact Or.inr ⟨_, rfl, rfl⟩

/-- C4 — hero resolution is invariant under name variants with equal
normalizations (case changes and added/removed spaces, hyphens,
apostrophes are all erased by `_normalize_name`), and the three
Anti-Mage variants all resolve to hero ID 1 on the modelled catalog. -/
theorem hero_resolution_name_variant_invariance :
    (∀ (heroes : List HeroRec) (a b : String), normalizeName a = normalizeName b →
      (resolve_hero heroes (some (.inr a))).toOption =
        (resolve_hero heroes (some (.inr b))).toOption) ∧
    resolve_hero specHeroes (some (.inr "Anti-Mage")) = .ok (some 1) ∧
    resolve_hero specHeroes (some (.inr "antimage")) = .ok (some 1) ∧
    resolve_hero specHeroes (some (.inr "ANTI MAGE")) = .ok (some 1) := by
  refine ⟨fun heroes a b h => ?_, rfl, rfl, rfl⟩
  rcases heroLogic_key_congr heroes h with heq | ⟨sugg, ha, hb⟩
  · simp only [resolve_hero]
    rw [heq]
    cases get_hero_id_by_name_logic heroes b with
    | exact i ln => rfl
    | fuzzyHigh i ln => rfl
    | fuzzyMedium i ln alts => rfl
    | err q sugg => cases hs : sugg.isEmpty <;> simp [hs, Except.toOption]
  · simp only [resolve_hero]
    rw [ha, hb]
    cases hs : sugg.isEmpty <;> simp [hs, Except.toOption]

/-- Witness for C4's invariance at the "Anti-Mage"/"ANTI MAGE" pair. -/
theorem hero_resolution_name_variant_invariance_witness :
    (resolve_hero specHeroes (some (.inr "Anti-Mage"))).toOption =
      (resolve_hero specHeroes (some (.inr "ANTI MAGE"))).toOption :=
  hero_resolution_name_variant_invariance.1 specHeroes "Anti-Mage" "ANTI MAGE" (by decide)

/-- C7 — `resolve_stat_field` fails immediately on empty input;
otherwise it normalizes and tries, in order: exact synonym-table match
with underscores, exact match with spaces removed, exact match with
spaces preserved, then `get_close_matches` with cutoff 0.6 (top 3), and
if nothing clears the cutoff it fails listing the first 10 sorted
canonical field names. -/
theorem resolve_stat_field_tiers :
    resolve_stat_field "" = .error "Field cannot be empty" ∧
    (∀ f v, f ≠ "" →
      VALID_STAT_FIELDS.lookup (pyReplaceChar (statNormalize f) ' ' '_') = some v →
      resolve_stat_field f = .ok v) ∧
    (∀ f v, f ≠ "" →
      VALID_STAT_FIELDS.lookup (pyReplaceChar (statNormalize f) ' ' '_') = none →
      VALID_STAT_FIELDS.lookup (pyDeleteChar (statNormalize f) ' ') = some v →
      resolve_stat_field f = .ok v) ∧
    (∀ f v, f ≠ "" →
      VALID_STAT_FIELDS.lookup (pyReplaceChar (statNormalize f) ' ' '_') = none →
      VALID_STAT_FIELDS.lookup (pyDeleteChar (statNormalize f) ' ') = none →
      VALID_STAT_FIELDS.lookup (statNormalize f) = some v →
      resolve_stat_field f = .ok v) ∧
    (∀ f best rest, f ≠ "" →
      VALID_STAT_FIELDS.lookup (pyReplaceChar (statNormalize f) ' ' '_') = none →
      VALID_STAT_FIELDS.lookup (pyDeleteChar (statNormalize f) ' ') = none →
      VALID_STAT_FIELDS.lookup (statNormalize f) = none →
      getCloseMatches (statNormalize f) (VALID_STAT_FIELDS.map Prod.fst) 3 3 5 = best :: rest →
      resolve_stat_field f = .ok ((VALID_STAT_FIELDS.lookup best).getD "")) ∧
    (∀ f, f ≠ "" →
      VALID_STAT_FIELDS.lookup (pyReplaceChar (statNormalize f) ' ' '_') = none →
      VALID_STAT_FIELDS.lookup (pyDeleteChar (statNormalize f) ' ') = none →
      VALID_STAT_FIELDS.lookup (statNormalize f) = none →
      getCloseMatches (statNormalize f) (VALID_STAT_FIELDS.map Prod.fst) 3 3 5 = [] →
      resolve_stat_field f =
        .error ("Statistical field " ++ sq ++ f ++ sq ++ " not recognized. " ++
          "Valid fields: " ++ joinSep ", " (validStatFieldValuesSorted.take 10) ++ "... " ++
          "(See documentation for full list)")) := by
  refine ⟨rfl, fun f v hne h1 => ?_, fun f v hne h1 h2 => ?_, fun f v hne h1 h2 h3 => ?_,
    fun f best rest hne h1 h2 h3 h4 => ?_, fun f hne h1 h2 h3 h4 => ?_⟩
  · simp only [resolve_stat_field]
    rw [if_neg hne, h1]
  · simp only [resolve_stat_field]
    rw [if_neg hne, h1, h2]
  · simp only [resolve_stat_field]
    rw [if_neg hne, h1, h2, h3]
  · simp only [resolve_stat_field]
    rw [if_neg hne, h1, h2, h3, h4]
  · simp only [resolve_stat_field]
    rw [if_neg hne, h1, h2, h3, h4]

/-- Witness for C7's tiers at concrete inputs: "gpm" (underscore-keyed
exact tier), "creep-score" (spaces-preserved tier), "gmp" (fuzzy tier),
"banana" (failure tier). -/
theorem resolve_stat_field_tiers_witness :
    resolve_stat_field "gpm" = .ok "gold_per_min" ∧
    resolve_stat_field "creep-score" = .ok "last_hits" ∧
    resolve_stat_field "gmp" = .ok ((VALID_STAT_FIELDS.lookup "gpm").getD "") ∧
    resolve_stat_field "banana" =
      .error ("Statistical field " ++ sq ++ "banana" ++ sq ++ " not recognized. " ++
        "Valid fields: " ++ joinSep ", " (validStatFieldValuesSorted.take 10) ++ "... " ++
        "(See documentation for full list)") :=
  ⟨resolve_stat_field_tiers.2.1 "gpm" "gold_per_min" (by decide) (by decide),
   resolve_stat_field_tiers.2.2.2.1 "creep-score" "last_hits" (by decide) (by decide)
     (by decide) (by decide),
   resolve_stat_field_tiers.2.2.2.2.1 "gmp" "gpm" [] (by decide) (by decide) (by decide)
     (by decide) (by decide),
   resolve_stat_field_tiers.2.2.2.2.2 "banana" (by decide) (by decide) (by decide)
     (by decide) (by decide)⟩

/-- C10 — a successful `get_account_id` call for a nickname missing
from the cache performs exactly one upstream search, writes the found
id back under the lowercased nickname, and any later call whose
nickname lowercases the same returns the same id from the cache with no
further upstream search and no cache change. -/
theorem account_id_cache_writeback (search : String → List Int)
    (cache : List (String × String)) (name idStr : String)
    (cache2 : List (String × String)) (k : Nat)
    (hmiss : cache.lookup (pyLower name) = none)
    (hok : get_account_id search cache name = .ok (idStr, cache2, k)) :
    k = 1 ∧
    cache2.lookup (pyLower name) = some idStr ∧
    (∀ name2 : String, pyLower name2 = pyLower name →
      get_account_id search cache2 name2 = .ok (idStr, cache2, 0)) := by
  simp only [get_account_id, hmiss] at hok
  cases hsr : search name with
  | nil =>
    rw [hsr] at hok
    exact absurd hok (by simp)
  | cons first rest =>
    rw [hsr] at hok
    simp only [Except.ok.injEq, Prod.mk.injEq] at hok
    obtain ⟨rfl, rfl, rfl⟩ := hok
    have hcache : (dictSet cache (pyLower name) (toString first)).lookup (pyLower name) =
        some (toString first) := by
      unfold dictSet
      rw [if_neg (by simp [hmiss])]
      rw [lookup_append_of_none _ hmiss]
      simp [List.lookup]
    refine ⟨rfl, hcache, fun name2 h2 => ?_⟩
    simp only [get_account_id, h2, hcache]

/-- Witness for C10 at a concrete oracle and the pre-seeded cache:
"NewGuy" is not cached, one search admits id 42, and "NEWGUY" then hits
the cache. -/
theorem account_id_cache_writeback_witness :
    (1 : Nat) = 1 ∧
    (PLAYER_CACHE ++ [("newguy", "42")]).lookup (pyLower "NewGuy") = some "42" ∧
    (∀ name2 : String, pyLower name2 = pyLower "NewGuy" →
      get_account_id (fun _ => [42]) (PLAYER_CACHE ++ [("newguy", "42")]) name2 =
        .ok ("42", PLAYER_CACHE ++ [("newguy", "42")], 0)) :=
  account_id_cache_writeback (fun _ => [42]) PLAYER_CACHE "NewGuy" "42"
    (PLAYER_CACHE ++ [("newguy", "42")]) 1 (by decide) (by rfl)

/-- C8 — counterexample: a match object that contains the keys
`match_id`, `players`, `teamfights` and `radiant_gold_adv` but whose
`match_id` value is a list; the extractor then leaves `match_id` out of
`metadata` entirely (the metadata bag keeps only scalar fields), so the
claim's universally quantified conclusion fails. -/
theorem extract_match_sections_counterexample :
    extract_match_sections
      [("match_id", .list []), ("players", .list []), ("teamfights", .list []),
       ("radiant_gold_adv", .list [])] =
      .ok [("players", .list []), ("teamfights", .list []), ("radiant_gold_adv", .list []),
           ("metadata", .dict [])] := rfl

/-- C8 (amended) — for every match dict without wrapper keys
(`result`, `structuredContent`) that binds `match_id` to a scalar and
`players`/`teamfights` to list-or-dict values and contains
`radiant_gold_adv`, the extractor returns a sections map with
`players`, `teamfights`, `radiant_gold_adv` and `metadata`, where
`match_id` is in the metadata and `players`/`teamfights` are not. -/
theorem extract_match_sections_amended
    (data : List (String × JVal)) (mv pv tv gv : JVal)
    (hnd : (data.map Prod.fst).Nodup)
    (hres : data.lookup "result" = none)
    (hsc : data.lookup "structuredContent" = none)
    (hmid : data.lookup "match_id" = some mv) (hmv : mv.isListOrDict = false)
    (hpl : data.lookup "players" = some pv) (hpv : pv.isListOrDict = true)
    (htf : data.lookup "teamfights" = some tv) (htv : tv.isListOrDict = true)
    (hga : data.lookup "radiant_gold_adv" = some gv) :
    ∃ S md : List (String × JVal),
      extract_match_sections data = .ok S ∧
      S.lookup "players" = some pv ∧
      S.lookup "teamfights" = some tv ∧
      S.lookup "radiant_gold_adv" = some gv ∧
      S.lookup "metadata" = some (.dict md) ∧
      md.lookup "match_id" = some mv ∧
      md.lookup "players" = none ∧
      md.lookup "teamfights" = none := by
  have hfm : findMatchObject data = .ok (.dict data) := by
    simp only [findMatchObject, hres, hsc, hmid, hpl]
    rfl
  refine ⟨buildSections data SECTION_KEYS ++ [("metadata", .dict (data.filter metadataPred))],
    data.filter metadataPred, ?_, ?_, ?_, ?_, ?_, ?_, ?_, ?_⟩
  · simp only [extract_match_sections, hfm]
    rfl
  · exact lookup_append_of_some _
      (by rw [lookup_buildSections, if_pos (by decide), hpl])
  · exact lookup_append_of_some _
      (by rw [lookup_buildSections, if_pos (by decide), htf])
  · exact lookup_append_of_some _
      (by rw [lookup_buildSections, if_pos (by decide), hga])
  · rw [lookup_append_of_none _ (by rw [lookup_buildSections, if_neg (by decide)])]
    simp [List.lookup]
  · exact lookup_filter_of_pos hmid (by simp [metadataPred, hmv])
  · exact lookup_filter_of_neg hnd hpl (by simp [metadataPred, hpv])
  · exact lookup_filter_of_neg hnd htf (by simp [metadataPred, htv])

/-- Witness for the amended C8 at the spec's fixture shape. -/
theorem extract_match_sections_amended_witness :
    ∃ S md : List (String × JVal),
      extract_match_sections
        [("match_id", .int 12345), ("players", .list [.dict []]), ("teamfights", .list []),
         ("radiant_gold_adv", .list [.int 0])] = .ok S ∧
      S.lookup "players" = some (.list [.dict []]) ∧
      S.lookup "teamfights" = some (.list []) ∧
      S.lookup "radiant_gold_adv" = some (.list [.int 0]) ∧
      S.lookup "metadata" = some (.dict md) ∧
      md.lookup "match_id" = some (.int 12345) ∧
      md.lookup "players" = none ∧
      md.lookup "teamfights" = none :=
  extract_match_sections_amended
    [("match_id", .int 12345), ("players", .list [.dict []]), ("teamfights", .list []),
     ("radiant_gold_adv", .list [.int 0])]
    (.int 12345) (.list [.dict []]) (.list []) (.list [.int 0])
    (by decide) rfl rfl rfl rfl rfl rfl rfl rfl rfl

/-- One `acquire()` keeps the window at or below capacity and returns
with every recorded timestamp inside the trailing 60 seconds of the
appended (last) timestamp.  Requires only the state bound, clock
monotonicity, and the sleep lower bound. -/
theorem acquireStep_bound (cap : Nat) (hcap : 1 ≤ cap) (s : List Int) (c : Int × Int)
    (hlen : s.length ≤ cap) (h1 : ∀ t ∈ s, t ≤ c.1) (h2 : c.1 ≤ c.2)
    (h3 : cap ≤ (purgeWindow c.1 s).length → (purgeWindow c.1 s).headD 0 + 60 ≤ c.2) :
    (acquireStep cap s c).length ≤ cap ∧
    ∀ t ∈ acquireStep cap s c,
      (acquireStep cap s c).getLastD 0 - t < 60 ∧ t ≤ (acquireStep cap s c).getLastD 0 := by
  unfold acquireStep
  by_cases hfull : cap ≤ (purgeWindow c.1 s).length
  · rw [if_pos hfull]
    have hplen : (purgeWindow c.1 s).length ≤ s.length := List.length_filter_le _ _
    have hne : purgeWindow c.1 s ≠ [] := by
      intro hnil
      rw [hnil] at hfull
      simp at hfull
      omega
    obtain ⟨h0, tl, hcons⟩ := List.exists_cons_of_ne_nil hne
    have hhead : (purgeWindow c.1 s).headD 0 = h0 := by rw [hcons]; rfl
    have hmem0 : h0 ∈ purgeWindow c.1 s := by
      rw [hcons]
      exact List.mem_cons_self _ _
    have hrecent : c.1 - h0 < 60 := by
      have := List.of_mem_filter hmem0
      simpa using this
    have hwait : 0 < 60 - (c.1 - (purgeWindow c.1 s).headD 0) := by
      rw [hhead]
      omega
    rw [if_pos hwait]
    have hexp : h0 + 60 ≤ c.2 := by
      have := h3 hfull
      rw [hhead] at this
      exact this
    have hdrop : purgeWindow c.2 (purgeWindow c.1 s) = purgeWindow c.2 tl := by
      rw [hcons]
      unfold purgeWindow
      rw [List.filter_cons, if_neg (by simp; omega)]
    have hlast : ((purgeWindow c.2 (purgeWindow c.1 s)).concat c.2).getLastD 0 = c.2 := by
      simp [List.concat_eq_append]
    constructor
    · rw [hdrop]
      have hlen2 : (purgeWindow c.2 tl).length ≤ tl.length := List.length_filter_le _ _
      have hlen3 : tl.length + 1 ≤ cap := by
        have : (purgeWindow c.1 s).length = tl.length + 1 := by rw [hcons]; simp
        omega
      simp only [List.length_concat]
      omega
    · intro t ht
      rw [hlast]
      rw [List.concat_eq_append, List.mem_append] at ht
      rcases ht with hin | hsing
      · have h60 : c.2 - t < 60 := by
          have := List.of_mem_filter hin
          simpa using this
        have hts : t ∈ s :=
          List.mem_of_mem_filter (List.mem_of_mem_filter hin)
        exact ⟨h60, le_trans (h1 t hts) h2⟩
      · simp only [List.mem_singleton] at hsing
        subst hsing
        omega
  · rw [if_neg hfull]
    push_neg at hfull
    have hlast : ((purgeWindow c.1 s).concat c.1).getLastD 0 = c.1 := by
      simp [List.concat_eq_append]
    constructor
    · simp only [List.length_concat]
      omega
    · intro t ht
      rw [hlast]
      rw [List.concat_eq_append, List.mem_append] at ht
      rcases ht with hin | hsing
      · have h60 : c.1 - t < 60 := by
          have := List.of_mem_filter hin
          simpa using this
        exact ⟨h60, h1 t (List.mem_of_mem_filter hin)⟩
      · simp only [List.mem_singleton] at hsing
        subst hsing
        omega

/-- The invariant of `acquireStep_bound` carried along any valid call
trace from any state satisfying it. -/
theorem runAcquires_bound (cap : Nat) (hcap : 1 ≤ cap) :
    ∀ (calls : List (Int × Int)) (s : List Int),
      s.length ≤ cap →
      (∀ t ∈ s, s.getLastD 0 - t < 60 ∧ t ≤ s.getLastD 0) →
      ValidCalls cap s calls →
      (calls.foldl (acquireStep cap) s).length ≤ cap ∧
      ∀ t ∈ calls.foldl (acquireStep cap) s,
        (calls.foldl (acquireStep cap) s).getLastD 0 - t < 60 ∧
          t ≤ (calls.foldl (acquireStep cap) s).getLastD 0 := by
  intro calls
  induction calls with
  | nil => exact fun s hlen hwin _ => ⟨hlen, hwin⟩
  | cons c rest ih =>
    intro s hlen hwin hv
    simp only [ValidCalls] at hv
    obtain ⟨hm, hcl, hsl, hv'⟩ := hv
    have step := acquireStep_bound cap hcap s c hlen hm hcl hsl
    simpa using ih (acquireStep cap s c) step.1 step.2 hv'

/-- A prefix of a valid call trace is itself valid. -/
theorem validCalls_of_append (cap : Nat) :
    ∀ (pre post : List (Int × Int)) (s : List Int),
      ValidCalls cap s (pre ++ post) → ValidCalls cap s pre := by
  intro pre
  induction pre with
  | nil => exact fun post s _ => trivial
  | cons c rest ih =>
    intro post s hv
    simp only [List.cons_append, ValidCalls] at hv ⊢
    exact ⟨hv.1, hv.2.1, hv.2.2.1, ih post _ hv.2.2.2⟩

/-- C1 — along every wall-clock-consistent sequence of `acquire()`
calls on a limiter of capacity at least 1, immediately after any
`acquire()` returns (i.e. after any prefix of the trace) the recorded
timestamp list holds at most `capacityPerMinute` entries, and every one
of them lies within the trailing 60 seconds of the just-appended
timestamp — entries older than 60 seconds having been purged by the
filter that `acquire()` runs before its admission check (and again
after its sleep). -/
theorem rate_limiter_window_invariant (cap : Nat) (hcap : 1 ≤ cap)
    (calls pre post : List (Int × Int)) (hsplit : calls = pre ++ post)
    (hv : ValidCalls cap [] calls) :
    (runAcquires cap pre).length ≤ cap ∧
    ∀ t ∈ runAcquires cap pre,
      (runAcquires cap pre).getLastD 0 - t < 60 ∧ t ≤ (runAcquires cap pre).getLastD 0 := by
  subst hsplit
  exact runAcquires_bound cap hcap pre [] (by simp) (by simp)
    (validCalls_of_append cap pre post [] hv)

/-- Witness for C1: capacity 1, one immediate admission at time 0,
then a second call at time 10 that sleeps until time 70. -/
theorem rate_limiter_window_invariant_witness :
    (runAcquires 1 [(0, 0), (10, 70)]).length ≤ 1 ∧
    ∀ t ∈ runAcquires 1 [(0, 0), (10, 70)],
      (runAcquires 1 [(0, 0), (10, 70)]).getLastD 0 - t < 60 ∧
        t ≤ (runAcquires 1 [(0, 0), (10, 70)]).getLastD 0 :=
  rate_limiter_window_invariant 1 (by decide) [(0, 0), (10, 70)] [(0, 0), (10, 70)] []
    (by simp) (by simp [ValidCalls, acquireStep, purgeWindow])

end OpenDota
